import Mathlib

/-!
Verification of the ppm-conv process-orchestration core against its
natural-language specification.

The repository is a Python dataflow-pipeline framework (src/main.py,
src/ppm/worker.py, src/ppm/network/sockets.py).  This file gives a shallow
embedding of the parts of that code the specification claims speak about:

* the supervisor's readiness wait (src/main.py lines 97-104),
* the queue wiring of the pipeline builder (src/main.py lines 62-93),
* `WorkerProcess.from_config` (src/ppm/worker.py lines 34-57),
* the worker run loop `WorkerProcess.run` (src/ppm/worker.py lines 82-113),
* the network bridge: `NetworkClientWorker.routine`,
  `NetworkServerWorker.run` and `NetworkServerWorker._client_handler`
  (src/ppm/network/sockets.py).

Each definition carries a comment locating the source lines it embeds.
-/

namespace PpmConv

/-!  ### Supervisor readiness wait (src/main.py lines 97-104)

The supervisor holds, for every worker process, a `ready` event that the
worker sets once its `setup()` has succeeded (src/ppm/worker.py line 86).
For the readiness wait only the time at which each event becomes set
matters, so a worker is modelled by its process name together with the
number of whole seconds of waiting after which its `ready` event is set
(`none` when the event is never set, e.g. because `setup` raised and the
process died without reaching `self.ready.set()`). -/

/-- One worker as observed by the supervisor's readiness wait. -/
structure ReadyWorker where
  name : String
  readyAt : Option Nat
deriving DecidableEq, Repr

/-- Whether worker `w`'s `ready` event is set once `t` seconds of the
readiness wait have elapsed (`w.ready.is_set()` in the source). -/
def readyBy (w : ReadyWorker) (t : Nat) : Bool :=
  match w.readyAt with
  | some r => decide (r ≤ t)
  | none => false

/-- Negation of `any(not e.is_set() for e in ready_events)`
(src/main.py line 98) at elapsed time `t`. -/
def allReadyAt (ws : List ReadyWorker) (t : Nat) : Bool :=
  ws.all (fun w => readyBy w t)

/-- The polling loop of src/main.py lines 98-100:

    while any(not e.is_set() for e in ready_events) and ready_check_count <= READY_TIMEOUT:
        ready_check_count += 1
        time.sleep(1)

`count` is `ready_check_count`; since every completed iteration sleeps one
second, the elapsed time at each loop-condition check equals `count`.  The
loop runs at most `timeout + 1` iterations, so structural recursion on a
fuel of `timeout + 2` computes the exact final value of
`ready_check_count`. -/
def waitGo (ws : List ReadyWorker) (timeout : Nat) : Nat → Nat → Nat
  | 0, count => count
  | fuel + 1, count =>
    if allReadyAt ws count = false ∧ count ≤ timeout then
      waitGo ws timeout fuel (count + 1)
    else
      count

/-- Final value of `ready_check_count` after the polling loop. -/
def waitCount (ws : List ReadyWorker) (timeout : Nat) : Nat :=
  waitGo ws timeout (timeout + 2) 0

/-- The names reported by the `TimeoutError` of src/main.py line 102:
`[w.name for w in processes.values() if not w.ready.is_set()]`, evaluated
at elapsed time `t`. -/
def notReadyNames (ws : List ReadyWorker) (t : Nat) : List String :=
  (ws.filter (fun w => ! readyBy w t)).map (fun w => w.name)

/-- Outcome of the readiness wait: either `start_event.set()` is reached
(src/main.py line 103) or the `TimeoutError` of line 101-102 is raised. -/
inductive ReadyOutcome where
  | started
  | timedOut (notReady : List String)
deriving DecidableEq, Repr

/-- src/main.py lines 97-103: run the polling loop, then
`if ready_check_count >= READY_TIMEOUT: raise TimeoutError(...)` else
`start_event.set()`. -/
def readinessWait (ws : List ReadyWorker) (timeout : Nat) : ReadyOutcome :=
  let c := waitCount ws timeout
  if timeout ≤ c then .timedOut (notReadyNames ws c) else .started

/-- Observable effect of the readiness phase on the supervisor.  The
`TimeoutError` is caught by the `except` of src/main.py line 131 and the
`finally` block (lines 134-150) always performs teardown, so
`teardownRan` is true on both paths; `startReleased` records whether
`start_event.set()` executed. -/
structure SupervisorPhase where
  startReleased : Bool
  timeoutRaised : Bool
  notReadyReported : List String
  teardownRan : Bool
deriving DecidableEq, Repr

/-- The supervisor's handling of the readiness wait (src/main.py lines
97-103 together with the surrounding try/except/finally). -/
def superviseReadiness (ws : List ReadyWorker) (timeout : Nat) : SupervisorPhase :=
  match readinessWait ws timeout with
  | .started => ⟨true, false, [], true⟩
  | .timedOut l => ⟨false, true, l, true⟩

/-- Default of the `-t`/`--timeout` CLI option (src/main.py line 10). -/
def readyTimeoutDefault : Nat := 120

theorem readyBy_mono {w : ReadyWorker} {s t : Nat} (hst : s ≤ t)
    (h : readyBy w s = true) : readyBy w t = true := by
  unfold readyBy at h ⊢
  cases hw : w.readyAt with
  | none => rw [hw] at h; exact absurd h (by simp)
  | some r => rw [hw] at h; simp at h; simp; omega

theorem waitGo_exit (ws : List ReadyWorker) (timeout : Nat) :
    ∀ fuel count, timeout + 2 = fuel + count →
      allReadyAt ws (waitGo ws timeout fuel count) = true ∨
        timeout < waitGo ws timeout fuel count := by
  intro fuel
  induction fuel with
  | zero =>
    intro count h
    right
    simp only [waitGo]
    omega
  | succ n ih =>
    intro count h
    by_cases ha : allReadyAt ws count = false
    · by_cases hb : count ≤ timeout
      · have hcond : allReadyAt ws count = false ∧ count ≤ timeout := ⟨ha, hb⟩
        simp only [waitGo, if_pos hcond]
        exact ih (count + 1) (by omega)
      · have hcond : ¬ (allReadyAt ws count = false ∧ count ≤ timeout) := by
          intro hx; exact hb hx.2
        simp only [waitGo, if_neg hcond]
        right; omega
    · have hcond : ¬ (allReadyAt ws count = false ∧ count ≤ timeout) := by
        intro hx; exact ha hx.1
      simp only [waitGo, if_neg hcond]
      left
      cases hv : allReadyAt ws count with
      | true => rfl
      | false => exact absurd hv ha

theorem waitGo_stuck (ws : List ReadyWorker) (timeout : Nat)
    (hnr : ∀ c, c ≤ timeout → allReadyAt ws c = false) :
    ∀ fuel count, timeout + 2 = fuel + count → count ≤ timeout + 1 →
      waitGo ws timeout fuel count = timeout + 1 := by
  intro fuel
  induction fuel with
  | zero =>
    intro count h hle
    omega
  | succ n ih =>
    intro count h hle
    by_cases hb : count ≤ timeout
    · have hcond : allReadyAt ws count = false ∧ count ≤ timeout :=
        ⟨hnr count hb, hb⟩
      simp only [waitGo, if_pos hcond]
      exact ih (count + 1) (by omega) (by omega)
    · have hcond : ¬ (allReadyAt ws count = false ∧ count ≤ timeout) := by
        intro hx; exact hb hx.2
      simp only [waitGo, if_neg hcond]
      omega

theorem waitGo_le (ws : List ReadyWorker) (timeout : Nat) {c : Nat}
    (hc : allReadyAt ws c = true) :
    ∀ fuel count, count ≤ c → waitGo ws timeout fuel count ≤ c := by
  intro fuel
  induction fuel with
  | zero =>
    intro count h
    simpa only [waitGo] using h
  | succ n ih =>
    intro count h
    by_cases ha : allReadyAt ws count = false ∧ count ≤ timeout
    · have hne : count ≠ c := by
        intro he
        rw [he, hc] at ha
        exact absurd ha.1 (by simp)
      simp only [waitGo, if_pos ha]
      exact ih (count + 1) (by omega)
    · simp only [waitGo, if_neg ha]
      exact h

/-- C1: the start signal is never released while some worker's ready flag
is unset: `start_event.set()` (src/main.py line 103) is reached only when
every worker's `ready` event is set at that moment, and if some stage is
still not ready after `timeout` seconds of waiting, `start` is never
released and the supervisor proceeds to teardown instead. -/
theorem spec_c1 (ws : List ReadyWorker) (timeout : Nat) :
    ((superviseReadiness ws timeout).startReleased = true →
      allReadyAt ws (waitCount ws timeout) = true)
    ∧ ((∃ w, w ∈ ws ∧ readyBy w timeout = false) →
      (superviseReadiness ws timeout).startReleased = false ∧
        (superviseReadiness ws timeout).teardownRan = true) := by
  constructor
  · intro h
    unfold superviseReadiness readinessWait at h
    by_cases hge : timeout ≤ waitCount ws timeout
    · simp only [hge, if_pos, if_true] at h
      exact absurd h (by simp)
    · rcases waitGo_exit ws timeout (timeout + 2) 0 (by omega) with hall | hgt
      · exact hall
      · exact absurd hgt (by unfold waitCount at hge; omega)
  · rintro ⟨w, hw, hnr⟩
    have hall : ∀ c, c ≤ timeout → allReadyAt ws c = false := by
      intro c hcle
      cases hv : allReadyAt ws c with
      | false => rfl
      | true =>
        have hwready : readyBy w c = true := by
          have := (List.all_eq_true.mp hv) w hw
          simpa using this
        have : readyBy w timeout = true := readyBy_mono hcle hwready
        rw [this] at hnr
        exact absurd hnr (by simp)
    have hwc : waitCount ws timeout = timeout + 1 :=
      waitGo_stuck ws timeout hall (timeout + 2) 0 (by omega) (by omega)
    unfold superviseReadiness readinessWait
    rw [hwc]
    simp

/-- Witness for C1 at a concrete pipeline: worker `b` never becomes ready,
so start is not released and teardown runs. -/
theorem spec_c1_witness :
    (superviseReadiness [⟨("a"), some 0⟩, ⟨("b"), none⟩] 2).startReleased = false ∧
      (superviseReadiness [⟨("a"), some 0⟩, ⟨("b"), none⟩] 2).teardownRan = true :=
  (spec_c1 [⟨("a"), some 0⟩, ⟨("b"), none⟩] 2).2
    ⟨⟨("b"), none⟩, by decide, by decide⟩

/-- C3 counterexample: with timeout 1, a single worker whose ready flag is
set after exactly 1 second of waiting (i.e. within the timeout) still
triggers the `TimeoutError` of src/main.py line 101-102, reporting an
empty not-ready list, and start is never released — refuting the claim
that start is released in every execution in which all workers become
ready within the timeout. -/
theorem spec_c3_counterexample :
    readyBy ⟨("a"), some 1⟩ 1 = true ∧
      superviseReadiness [⟨("a"), some 1⟩] 1 =
        ⟨false, true, [], true⟩ := by
  constructor
  · decide
  · decide

/-- C3 (amended): the readiness wait polls once per second; `start` is
released iff every ready flag is set at some poll strictly before the
poll count reaches the timeout; when the `TimeoutError` is raised, start
is not released and the error reports exactly the names of the stages not
ready at the final poll count (which is the empty list in the boundary
case where all workers become ready exactly at poll count = timeout);
the CLI default for the timeout is 120 seconds. -/
theorem spec_c3_amended (ws : List ReadyWorker) (timeout : Nat) :
    ((∃ c, c < timeout ∧ allReadyAt ws c = true) →
      (superviseReadiness ws timeout).startReleased = true)
    ∧ ((superviseReadiness ws timeout).timeoutRaised = true →
      (superviseReadiness ws timeout).startReleased = false ∧
        (superviseReadiness ws timeout).notReadyReported =
          notReadyNames ws (waitCount ws timeout))
    ∧ readyTimeoutDefault = 120 := by
  refine ⟨?_, ?_, rfl⟩
  · rintro ⟨c, hclt, hall⟩
    have hle : waitCount ws timeout ≤ c :=
      waitGo_le ws timeout hall (timeout + 2) 0 (by omega)
    unfold superviseReadiness readinessWait
    have hnot : ¬ timeout ≤ waitCount ws timeout := by omega
    simp [hnot]
  · intro h
    unfold superviseReadiness readinessWait at h ⊢
    by_cases hge : timeout ≤ waitCount ws timeout
    · simp [hge]
    · simp [hge] at h

/-- Witness for the amended C3: a worker ready immediately with timeout 2
gets start released; a never-ready worker with timeout 1 raises with its
name reported. -/
theorem spec_c3_witness :
    (superviseReadiness [⟨("a"), some 0⟩] 2).startReleased = true ∧
      (superviseReadiness [⟨("b"), none⟩] 1).notReadyReported =
        notReadyNames [⟨("b"), none⟩] (waitCount [⟨("b"), none⟩] 1) := by
  constructor
  · exact (spec_c3_amended [⟨("a"), some 0⟩] 2).1 ⟨0, by decide, by decide⟩
  · exact ((spec_c3_amended [⟨("b"), none⟩] 1).2.1 (by decide)).2

/-!  ### Pipeline builder: queue wiring (src/main.py lines 62-93)

For every stage entry with a `to` directive the supervisor creates one
fresh queue per named target, appends it to the source's `output_queues`
and assigns it as the target's `input_queue`, raising
`Exception('Only one input queue per worker is allowed (...)')` when the
target already has one (src/main.py lines 77-78).  Worker processes are
started only afterwards (lines 88-93). -/

/-- One stage entry of the YAML config as the wiring loop sees it: its
key and the list of target names of its `to` directive.  A scalar `to`
is normalized to a one-element list (src/main.py line 70); an absent
`to` (or a stage with a null body) yields the empty list. -/
structure StageCfg where
  key : String
  dst : List String
deriving DecidableEq, Repr

/-- The wiring state: which stage has been assigned which input queue
(queue ids number the `mp.Manager().Queue()` calls in creation order),
and the output-queue assignments `(source, queue id)`. -/
structure Wiring where
  inputOf : List (String × Nat)
  outputsOf : List (String × Nat)
  nextId : Nat
deriving DecidableEq, Repr

/-- `processes[target_worker].input_queue is not None` (src/main.py
line 77). -/
def hasInput (w : Wiring) (tgt : String) : Bool :=
  w.inputOf.any (fun p => p.1 == tgt)

/-- Message of the exception at src/main.py line 78. -/
def onlyOneInputMsg (tgt : String) : String :=
  "Only one input queue per worker is allowed (" ++ tgt ++ ")"

/-- A `to` directive naming a stage that was never configured makes
`processes[target_worker]` (src/main.py line 77) raise a `KeyError`. -/
def missingStageMsg (tgt : String) : String :=
  "KeyError: " ++ tgt

/-- The inner loop `for target_worker in to:` of src/main.py lines 72-79
for one source stage `src`; `keys` are the configured stage keys. -/
def wireTargets (keys : List String) (src : String) :
    Wiring → List String → Except String Wiring
  | w, [] => .ok w
  | w, tgt :: rest =>
    if keys.contains tgt = false then .error (missingStageMsg tgt)
    else if hasInput w tgt then .error (onlyOneInputMsg tgt)
    else wireTargets keys src
      ⟨w.inputOf ++ [(tgt, w.nextId)], w.outputsOf ++ [(src, w.nextId)], w.nextId + 1⟩
      rest

/-- The outer loop `for worker_key, worker in processes.items():` of
src/main.py lines 65-79, restricted to its queue-wiring effect. -/
def wireStages (keys : List String) :
    Wiring → List StageCfg → Except String Wiring
  | w, [] => .ok w
  | w, s :: rest =>
    match wireTargets keys s.key w s.dst with
    | .error e => .error e
    | .ok w2 => wireStages keys w2 rest

/-- Queue wiring for a whole configuration. -/
def wireEdges (stages : List StageCfg) : Except String Wiring :=
  wireStages (stages.map (fun s => s.key)) ⟨[], [], 0⟩ stages

/-- All edge targets of a configuration, in wiring order. -/
def flatTargets : List StageCfg → List String
  | [] => []
  | s :: rest => s.dst ++ flatTargets rest

/-- Whether the supervisor reached `p.start()` (src/main.py line 91):
a wiring exception propagates to the `except`/`finally` blocks before
the start loop runs, so workers start iff wiring succeeded. -/
structure MainBuild where
  workersStarted : Bool
  buildError : Option String
deriving DecidableEq, Repr

/-- src/main.py lines 62-93: wire the queues, then start the workers. -/
def mainBuild (stages : List StageCfg) : MainBuild :=
  match wireEdges stages with
  | .ok _ => ⟨true, none⟩
  | .error e => ⟨false, some e⟩

theorem wireTargets_ok (keys : List String) (src : String) :
    ∀ (ts : List String) (w w2 : Wiring),
      wireTargets keys src w ts = .ok w2 →
      w2.inputOf.map Prod.fst = w.inputOf.map Prod.fst ++ ts ∧
        ((w.inputOf.map Prod.fst).Nodup → (w2.inputOf.map Prod.fst).Nodup) := by
  intro ts
  induction ts with
  | nil =>
    intro w w2 h
    simp only [wireTargets] at h
    cases h
    simp
  | cons tgt rest ih =>
    intro w w2 h
    simp only [wireTargets] at h
    by_cases hk : keys.contains tgt = false
    · rw [if_pos hk] at h; exact absurd h (by simp)
    · rw [if_neg hk] at h
      by_cases hi : hasInput w tgt
      · rw [if_pos hi] at h; exact absurd h (by simp)
      · rw [if_neg hi] at h
        have hmem : tgt ∉ w.inputOf.map Prod.fst := by
          intro hm
          apply hi
          unfold hasInput
          rw [List.any_eq_true]
          rcases List.mem_map.mp hm with ⟨p, hp, hfst⟩
          exact ⟨p, hp, by simp [hfst]⟩
        rcases ih _ _ h with ⟨heq, hnd⟩
        constructor
        · rw [heq]; simp
        · intro hw
          apply hnd
          simp only [List.map_append]
          rw [List.nodup_append]
          refine ⟨hw, by simp, ?_⟩
          simp only [List.map_cons, List.map_nil]
          intro a ha hb
          simp at hb
          rw [hb] at ha
          exact hmem ha

theorem wireStages_ok (keys : List String) :
    ∀ (stages : List StageCfg) (w w2 : Wiring),
      wireStages keys w stages = .ok w2 →
      w2.inputOf.map Prod.fst = w.inputOf.map Prod.fst ++ flatTargets stages ∧
        ((w.inputOf.map Prod.fst).Nodup → (w2.inputOf.map Prod.fst).Nodup) := by
  intro stages
  induction stages with
  | nil =>
    intro w w2 h
    simp only [wireStages] at h
    cases h
    simp [flatTargets]
  | cons s rest ih =>
    intro w w2 h
    simp only [wireStages] at h
    cases ht : wireTargets keys s.key w s.dst with
    | error e => rw [ht] at h; exact absurd h (by simp)
    | ok w1 =>
      rw [ht] at h
      rcases wireTargets_ok keys s.key s.dst w w1 ht with ⟨heq1, hnd1⟩
      rcases ih w1 w2 h with ⟨heq2, hnd2⟩
      constructor
      · rw [heq2, heq1, flatTargets, List.append_assoc]
      · intro hw
        exact hnd2 (hnd1 hw)

/-- C2: for every pipeline configuration, each stage is assigned at most
one input edge — when wiring succeeds, the assigned input-queue targets
are exactly the configured edge targets with no stage repeated — and any
configuration in which some stage is the target of two edges makes the
wiring loop raise a configuration error, in which case no worker process
is started (src/main.py lines 77-78 versus line 91). -/
theorem spec_c2 (stages : List StageCfg) :
    (∀ w, wireEdges stages = .ok w →
      (w.inputOf.map Prod.fst).Nodup ∧
        w.inputOf.map Prod.fst = flatTargets stages)
    ∧ (∀ t, 2 ≤ (flatTargets stages).count t →
      ∃ e, wireEdges stages = .error e ∧
        (mainBuild stages).workersStarted = false) := by
  constructor
  · intro w h
    unfold wireEdges at h
    rcases wireStages_ok (stages.map (fun s => s.key)) stages ⟨[], [], 0⟩ w h with ⟨heq, hnd⟩
    refine ⟨hnd (by simp), ?_⟩
    simpa using heq
  · intro t hcount
    cases he : wireEdges stages with
    | ok w =>
      have he2 : wireStages (stages.map (fun s => s.key)) ⟨[], [], 0⟩ stages = .ok w := he
      rcases wireStages_ok (stages.map (fun s => s.key)) stages ⟨[], [], 0⟩ w he2 with ⟨heq, hnd⟩
      have hnodup : (flatTargets stages).Nodup := by
        have := hnd (by simp)
        rw [heq] at this
        simpa using this
      have := List.nodup_iff_count_le_one.mp hnodup t
      omega
    | error e =>
      refine ⟨e, rfl, ?_⟩
      unfold mainBuild
      rw [he]

/-- Witness for C2: a configuration in which stage `b` is the target of
two edges errors out without starting any worker. -/
theorem spec_c2_witness :
    (mainBuild [⟨("a"), [("b"), ("b")]⟩, ⟨("b"), []⟩]).workersStarted = false :=
  Exists.elim
    ((spec_c2 [⟨("a"), [("b"), ("b")]⟩, ⟨("b"), []⟩]).2 ("b") (by decide))
    (fun _ h => h.2)

/-!  ### WorkerProcess.from_config (src/ppm/worker.py lines 34-57)

A config dict is modelled extensionally as a partial map from keys to
values (`None` default arguments are normalized to `{}` before the dict
operations, src/ppm/worker.py lines 42-45, which corresponds to the
everywhere-`none` map).  The registry maps a tag to a factory; a factory
is a function from the merged config to either a worker or a raised
Python exception, so that a `KeyError` escaping the factory call can be
distinguished from other exceptions. -/

/-- A Python dict with string keys, seen extensionally. -/
def ConfigDict (V : Type) := String → Option V

/-- `config = global_config.copy()` followed by `config.update(worker_config)`
(src/ppm/worker.py lines 47-48): the overlay's entries win on every key
they define. -/
def dictUpdate {V : Type} (base overlay : ConfigDict V) : ConfigDict V :=
  fun k =>
    match overlay k with
    | some v => some v
    | none => base k

/-- `if 'to' in config: config.pop('to')` (src/ppm/worker.py lines 51-52). -/
def dictPop {V : Type} (d : ConfigDict V) (k0 : String) : ConfigDict V :=
  fun k => if k = k0 then none else d k

/-- The mapping actually handed to the factory by `from_config`. -/
def mergedConfig {V : Type} (worker_config global_config : ConfigDict V) : ConfigDict V :=
  dictPop (dictUpdate global_config worker_config) ("to")

/-- A raised Python exception, split by whether it is a `KeyError`
(which the `except KeyError` of src/ppm/worker.py line 55 catches). -/
inductive PyErr where
  | keyError (msg : String)
  | otherExc (msg : String)
deriving DecidableEq, Repr

/-- The message of the `KeyError` raised at src/ppm/worker.py lines 56-57
(the two adjacent f-string literals concatenate without a space). -/
def couldNotFindMsg (worker_type : String) : String :=
  "Could not find \"" ++ worker_type ++ "\" in registry." ++
    "Check spelling and import of corresponding module in main script."

/-- `WorkerProcess.from_config` (src/ppm/worker.py lines 34-57):
`WorkerProcess.registry[worker_type](**config)` is evaluated inside
`try: ... except KeyError:`; both a failed registry lookup and a
`KeyError` raised inside the factory are re-raised as the
"Could not find" `KeyError`, while any other factory exception
propagates unchanged. -/
def from_config {V W : Type}
    (registry : String → Option (ConfigDict V → Except PyErr W))
    (worker_type : String)
    (worker_config global_config : ConfigDict V) : Except PyErr W :=
  let config := mergedConfig worker_config global_config
  match registry worker_type with
  | none => .error (.keyError (couldNotFindMsg worker_type))
  | some factory =>
    match factory config with
    | .error (.keyError _) => .error (.keyError (couldNotFindMsg worker_type))
    | r => r

/-- C7: `from_config` constructs the worker from globalConfig overridden
by localConfig (local wins on every conflicting key, global fills the
rest), with the `to` routing directive removed before the factory is
invoked; a registered tag whose factory succeeds yields exactly the
factory's worker on the merged mapping, and an unregistered tag fails
with a `KeyError` whose message names the unknown tag. -/
theorem spec_c7 {V W : Type}
    (registry : String → Option (ConfigDict V → Except PyErr W))
    (worker_type : String) (wc gc : ConfigDict V) :
    (∀ k v, wc k = some v → mergedConfig wc gc k = if k = "to" then none else some v)
    ∧ (∀ k, wc k = none → mergedConfig wc gc k = if k = "to" then none else gc k)
    ∧ mergedConfig wc gc ("to") = none
    ∧ (∀ factory w, registry worker_type = some factory →
        factory (mergedConfig wc gc) = .ok w →
        from_config registry worker_type wc gc = .ok w)
    ∧ (registry worker_type = none →
        from_config registry worker_type wc gc =
          .error (.keyError (couldNotFindMsg worker_type)) ∧
        ∃ a b, couldNotFindMsg worker_type = a ++ worker_type ++ b) := by
  refine ⟨?_, ?_, ?_, ?_, ?_⟩
  · intro k v hk
    unfold mergedConfig dictPop dictUpdate
    by_cases hto : k = "to"
    · simp [hto]
    · simp [hto, hk]
  · intro k hk
    unfold mergedConfig dictPop dictUpdate
    by_cases hto : k = "to"
    · simp [hto]
    · simp [hto, hk]
  · unfold mergedConfig dictPop
    simp
  · intro factory w hreg hfac
    simp only [from_config, hreg, hfac]
  · intro hreg
    refine ⟨?_, "Could not find \"",
      "\" in registry." ++
        "Check spelling and import of corresponding module in main script.",
      ?_⟩
    · unfold from_config
      rw [hreg]
    · unfold couldNotFindMsg
      rw [String.append_assoc]

/-- Witness for C7 on concrete data: local key `x` overrides the global
value, the global-only key `g` survives, `to` is removed, a registered
factory receives the merged mapping, and an unknown tag errors with a
message containing the tag. -/
theorem spec_c7_witness :
    mergedConfig
        (fun k => if k = "x" then some 1 else if k = "to" then some 2 else none)
        (fun k => if k = "x" then some 9 else if k = "g" then some 3 else none)
        ("x") = some 1
    ∧ mergedConfig
        (fun k => if k = "x" then some 1 else if k = "to" then some 2 else none)
        (fun k => if k = "x" then some 9 else if k = "g" then some 3 else none)
        ("g") = some 3
    ∧ mergedConfig
        (fun k => if k = "x" then some 1 else if k = "to" then some 2 else none)
        (fun k => if k = "x" then some 9 else if k = "g" then some 3 else none)
        ("to") = none
    ∧ from_config (W := Nat)
        (fun t => if t = "printw" then some (fun _ => .ok 7) else none)
        ("nope")
        (fun k => if k = "x" then some 1 else if k = "to" then some 2 else none)
        (fun k => if k = "x" then some 9 else if k = "g" then some 3 else none) =
      .error (.keyError (couldNotFindMsg ("nope"))) := by
  refine ⟨?_, ?_, ?_, ?_⟩
  · have := (spec_c7 (W := Nat)
      (fun t => if t = "printw" then some (fun _ => .ok 7) else none) ("nope")
      (fun k => if k = "x" then some 1 else if k = "to" then some 2 else none)
      (fun k => if k = "x" then some 9 else if k = "g" then some 3 else none)).1
      ("x") 1 (by decide)
    simpa using this
  · have := (spec_c7 (W := Nat)
      (fun t => if t = "printw" then some (fun _ => .ok 7) else none) ("nope")
      (fun k => if k = "x" then some 1 else if k = "to" then some 2 else none)
      (fun k => if k = "x" then some 9 else if k = "g" then some 3 else none)).2.1
      ("g") (by decide)
    simpa using this
  · exact (spec_c7 (W := Nat)
      (fun t => if t = "printw" then some (fun _ => .ok 7) else none) ("nope")
      (fun k => if k = "x" then some 1 else if k = "to" then some 2 else none)
      (fun k => if k = "x" then some 9 else if k = "g" then some 3 else none)).2.2.1
  · exact ((spec_c7
      (fun t => if t = "printw" then some (fun _ => .ok 7) else none) ("nope")
      (fun k => if k = "x" then some 1 else if k = "to" then some 2 else none)
      (fun k => if k = "x" then some 9 else if k = "g" then some 3 else none)).2.2.2.2
      rfl).1

/-- C10: when a tag is registered but its factory raises a `KeyError`
during construction, `from_config` catches it (src/ppm/worker.py line
55) and re-raises the "Could not find tag in registry" error, thereby
reporting an internal factory failure as an unknown stage tag. -/
theorem spec_c10 {V W : Type}
    (registry : String → Option (ConfigDict V → Except PyErr W))
    (worker_type : String) (wc gc : ConfigDict V)
    (factory : ConfigDict V → Except PyErr W) (m : String)
    (hreg : registry worker_type = some factory)
    (hfac : factory (mergedConfig wc gc) = .error (.keyError m)) :
    from_config registry worker_type wc gc =
      .error (.keyError (couldNotFindMsg worker_type)) := by
  simp only [from_config, hreg, hfac]

/-- Witness for C10: the tag `printw` is registered, its factory raises
`KeyError('missing key x')`, and `from_config` reports
`Could not find "printw" in registry` instead. -/
theorem spec_c10_witness :
    from_config (V := Nat) (W := Nat)
        (fun t => if t = "printw" then
          some (fun _ => .error (.keyError ("missing key x"))) else none)
        ("printw") (fun _ => none) (fun _ => none) =
      .error (.keyError (couldNotFindMsg ("printw"))) :=
  spec_c10
    (fun t => if t = "printw" then
      some (fun _ => .error (.keyError ("missing key x"))) else none)
    ("printw") (fun _ => none) (fun _ => none)
    (fun _ => .error (.keyError ("missing key x"))) ("missing key x")
    rfl rfl

/-!  ### WorkerProcess.run (src/ppm/worker.py lines 82-113)

The run loop is embedded as a function of an abstract behaviour record
describing what each overridable phase and each loop iteration does in a
given execution: whether `setup`/`startup`/`cleanup` return or raise,
how the pre-start wait ends, and the outcome of each `routine` call.
The structure of `run` itself — the outer `try/except Exception/finally`,
the inner `try/except queue.Empty` and `except KeyboardInterrupt`, and
the unconditional `finally: self.cleanup()` guarded by its own
`try/except Exception` — is what the embedding reproduces. -/

/-- Outcome of one call to `setup`, `startup` or `cleanup`. -/
inductive PhaseOutcome where
  | ok
  | exc (e : String)
deriving DecidableEq, Repr

/-- How the pre-start wait of src/ppm/worker.py lines 88-89 ends:
`start_event` observed, `exit_event` observed, or an exception raised
inside the wait (e.g. an unwired event attribute). -/
inductive PreStartEnd where
  | startSet
  | exitSet
  | exc (e : String)
deriving DecidableEq, Repr

/-- Outcome of one iteration of the `while not self.exit_event.is_set()`
loop (src/ppm/worker.py lines 93-104): `routine()` returns, raises
`queue.Empty` (caught, line 100), raises another exception (escapes the
loop to line 106), a `KeyboardInterrupt` arrives (caught, line 103,
`break`), or `done` is set so the iteration merely sleeps (line 99). -/
inductive IterOutcome where
  | routineOk
  | routineEmpty
  | routineExc (e : String)
  | kbInterrupt
  | idleDone
deriving DecidableEq, Repr

/-- One execution's behaviour of a worker's overridable operations and
environment.  `iters` lists the loop iterations that happen before
`exit_event` is observed; the list ending corresponds to the loop
condition failing. -/
structure RunBehavior where
  setup : PhaseOutcome
  preStart : PreStartEnd
  startup : PhaseOutcome
  iters : List IterOutcome
  cleanup : PhaseOutcome
deriving DecidableEq, Repr

/-- How the running loop ends: normally (exit observed or
`KeyboardInterrupt` break) or with an exception escaping to the outer
`except Exception` handler. -/
inductive LoopEnd where
  | normal
  | erred (e : String)
deriving DecidableEq, Repr

/-- The `while not self.exit_event.is_set()` loop of src/ppm/worker.py
lines 93-104. -/
def loopRun : List IterOutcome → LoopEnd
  | [] => .normal
  | .routineOk :: rest => loopRun rest
  | .routineEmpty :: rest => loopRun rest
  | .idleDone :: rest => loopRun rest
  | .kbInterrupt :: _ => .normal
  | .routineExc e :: _ => .erred e

/-- Observable result of one `run()` call: whether `ready` was set, how
many times `cleanup` was invoked, which exceptions were logged by
`self.logger.exception(e)`, and whether any exception escaped `run`. -/
structure RunResult where
  readySet : Bool
  cleanupCalls : Nat
  logged : List String
  escaped : Bool
deriving DecidableEq, Repr

/-- The `finally` block of src/ppm/worker.py lines 109-113: `cleanup()`
runs inside its own `try/except Exception` which logs and swallows any
exception it raises. -/
def finishWith (ready : Bool) (logged : List String) (cl : PhaseOutcome) : RunResult :=
  match cl with
  | .ok => ⟨ready, 1, logged, false⟩
  | .exc e => ⟨ready, 1, logged ++ [e], false⟩

/-- `WorkerProcess.run` (src/ppm/worker.py lines 82-113).  An exception
in `setup`, the pre-start wait, `startup` or `routine` is caught by the
outer `except Exception` (line 106) and logged; `ready` is set only
after `setup` returns (line 86); every path then runs the `finally`
block exactly once. -/
def workerRun (b : RunBehavior) : RunResult :=
  match b.setup with
  | .exc e => finishWith false [e] b.cleanup
  | .ok =>
    match b.preStart with
    | .exc e => finishWith true [e] b.cleanup
    | .exitSet =>
      match b.startup with
      | .exc e => finishWith true [e] b.cleanup
      | .ok => finishWith true [] b.cleanup
    | .startSet =>
      match b.startup with
      | .exc e => finishWith true [e] b.cleanup
      | .ok =>
        match loopRun b.iters with
        | .normal => finishWith true [] b.cleanup
        | .erred e => finishWith true [e] b.cleanup

theorem finishWith_spec (ready : Bool) (logged : List String) (cl : PhaseOutcome) :
    (finishWith ready logged cl).cleanupCalls = 1 ∧
      (finishWith ready logged cl).escaped = false ∧
      (∀ e, cl = .exc e → e ∈ (finishWith ready logged cl).logged) := by
  cases cl with
  | ok =>
    refine ⟨rfl, rfl, ?_⟩
    intro e he
    exact absurd he (by simp)
  | exc e0 =>
    refine ⟨rfl, rfl, ?_⟩
    intro e he
    have : e0 = e := by
      cases he
      rfl
    unfold finishWith
    simp [this]

/-- C8: `cleanup` is invoked on every exit path of a worker's run loop —
normal completion, exit signal, or an exception in `setup`, the
pre-start wait, `startup` or `routine` — exactly once, no exception
escapes `run`, and an exception raised by `cleanup` itself is caught and
logged rather than escaping. -/
theorem spec_c8 (b : RunBehavior) :
    (workerRun b).cleanupCalls = 1 ∧
      (workerRun b).escaped = false ∧
      (∀ e, b.cleanup = .exc e → e ∈ (workerRun b).logged) := by
  unfold workerRun
  cases hs : b.setup with
  | exc e => exact finishWith_spec false [e] b.cleanup
  | ok =>
    cases hp : b.preStart with
    | exc e => exact finishWith_spec true [e] b.cleanup
    | exitSet =>
      cases ht : b.startup with
      | exc e => exact finishWith_spec true [e] b.cleanup
      | ok => exact finishWith_spec true [] b.cleanup
    | startSet =>
      cases ht : b.startup with
      | exc e => exact finishWith_spec true [e] b.cleanup
      | ok =>
        cases hl : loopRun b.iters with
        | normal => exact finishWith_spec true [] b.cleanup
        | erred e => exact finishWith_spec true [e] b.cleanup

/-- Witness for C8: a behaviour whose `routine` raises once and whose
`cleanup` itself raises still runs cleanup exactly once, logs the
cleanup exception and lets nothing escape. -/
theorem spec_c8_witness :
    (workerRun ⟨.ok, .startSet, .ok,
        [.routineOk, .routineExc ("boom")], .exc ("cleanup failed")⟩).cleanupCalls = 1 ∧
      (workerRun ⟨.ok, .startSet, .ok,
        [.routineOk, .routineExc ("boom")], .exc ("cleanup failed")⟩).escaped = false ∧
      ("cleanup failed") ∈ (workerRun ⟨.ok, .startSet, .ok,
        [.routineOk, .routineExc ("boom")], .exc ("cleanup failed")⟩).logged :=
  ⟨(spec_c8 ⟨.ok, .startSet, .ok,
      [.routineOk, .routineExc ("boom")], .exc ("cleanup failed")⟩).1,
    (spec_c8 ⟨.ok, .startSet, .ok,
      [.routineOk, .routineExc ("boom")], .exc ("cleanup failed")⟩).2.1,
    (spec_c8 ⟨.ok, .startSet, .ok,
      [.routineOk, .routineExc ("boom")], .exc ("cleanup failed")⟩).2.2
      ("cleanup failed") rfl⟩

/-!  ### Network bridge (src/ppm/network/sockets.py)

A message envelope is a dict; the bridge inspects only its `command`,
`audio` and `timestamp` fields, so a message is modelled by those three
(each optional, reflecting `'audio' in data`-style checks).  A wire
frame is the serialized envelope together with the key it was encrypted
under (`none` for a plaintext frame); Fernet decryption under key `k`
succeeds exactly on frames encrypted under `k`, and `json.loads` of a
ciphertext fails.  The base64/safetensors round-trip of the `audio`
field is lossless and is modelled as the identity on the payload. -/

/-- A message envelope as the network bridge sees it. -/
structure Msg where
  command : Option String
  audio : Option Nat
  timestamp : Option String
deriving DecidableEq, Repr

/-- A wire frame: the serialized envelope plus the key (if any) it was
encrypted under. -/
structure Frame where
  payload : Msg
  enc : Option Nat
deriving DecidableEq, Repr

/-- Exceptions the bridge code can raise in one iteration. -/
inductive NetErr where
  | invalidToken
  | jsonDecode
  | badFormat (m : Msg)
  | fieldKeyErr (field : String)
deriving DecidableEq, Repr

/-- Serialize and, when a key is configured, encrypt
(src/ppm/network/sockets.py lines 44-54 and 149-151). -/
def netSend (key : Option Nat) (m : Msg) : Frame :=
  ⟨m, key⟩

/-- Receive-side decoding (src/ppm/network/sockets.py lines 62-65 and
131-134): with a configured key, `f.decrypt` raises `InvalidToken`
unless the frame was encrypted under the same key; without a key,
`json.loads` fails on a ciphertext frame. -/
def netRecv (key : Option Nat) (f : Frame) : Except NetErr Msg :=
  match key with
  | some k =>
    if f.enc = some k then .ok f.payload else .error (.invalidToken)
  | none =>
    if f.enc = none then .ok f.payload else .error (.jsonDecode)

/-- Environment of one client `routine()` iteration: the message pulled
from the input queue (`none` = `queue.Empty`) and the frame returned by
`websocket.recv(0)` (`none` = `TimeoutError`). -/
structure ClientIter where
  inMsg : Option Msg
  recvd : Option Frame
deriving DecidableEq, Repr

/-- The Message OUT half of `NetworkClientWorker.routine`
(src/ppm/network/sockets.py lines 39-58): a queued message with an
`audio` field or a `command` field is serialized, optionally encrypted
and sent; any other queued message raises
`Exception('Bad data format...')`; an empty queue is a caught no-op. -/
def clientSendPhase (key : Option Nat) (inMsg : Option Msg) :
    Except NetErr (List Frame) :=
  match inMsg with
  | none => .ok []
  | some d =>
    if d.audio.isSome then .ok [netSend key d]
    else if d.command.isSome then .ok [netSend key d]
    else .error (.badFormat d)

/-- The Message IN half of `NetworkClientWorker.routine`
(src/ppm/network/sockets.py lines 60-69): a received frame is decoded
and delivered to all output edges; a receive timeout is a caught no-op;
a decode failure raises out of `routine`. -/
def clientRecvPhase (key : Option Nat) (recvd : Option Frame) :
    Except NetErr (List Msg) :=
  match recvd with
  | none => .ok []
  | some f =>
    match netRecv key f with
    | .ok m => .ok [m]
    | .error e => .error e

/-- One `NetworkClientWorker.routine()` call: OUT phase then IN phase;
an exception in the OUT phase skips the IN phase. -/
def clientRoutine (key : Option Nat) (it : ClientIter) :
    Except NetErr (List Frame × List Msg) :=
  match clientSendPhase key it.inMsg with
  | .error e => .error e
  | .ok sent =>
    match clientRecvPhase key it.recvd with
    | .error e => .error e
    | .ok outs => .ok (sent, outs)

/-- Result of running a bridge worker's iteration loop: the frames sent
to the peer, the messages delivered to the worker's output edges, and
the exception (if any) that ended the loop prematurely and was logged. -/
structure NetLoopResult where
  sent : List Frame
  outputs : List Msg
  diedWith : Option NetErr
deriving DecidableEq, Repr

/-- The client worker's run loop over its `routine` iterations
(src/ppm/worker.py lines 93-104 instantiated with
`NetworkClientWorker.routine`): a routine exception other than
`queue.Empty` escapes the loop, is logged by the outer
`except Exception` (line 106-107) and the worker process proceeds to
cleanup and ends — subsequent iterations never run. -/
def clientLoop (key : Option Nat) : List ClientIter → NetLoopResult
  | [] => ⟨[], [], none⟩
  | it :: rest =>
    match clientRoutine key it with
    | .error e => ⟨[], [], some e⟩
    | .ok (sf, outs) =>
      let r := clientLoop key rest
      ⟨sf ++ r.sent, outs ++ r.outputs, r.diedWith⟩

/-!  ### Server connection handler (src/ppm/network/sockets.py 112-177) -/

/-- The command tags a received message must carry to be forwarded to
the output edges (src/ppm/network/sockets.py line 140). -/
def serverCommands : List String :=
  [("transcribe"), ("conv"), ("conv-reset"), ("conv-silence")]

/-- Environment of one handler-loop iteration: the frame returned by
`websocket.recv(0)` (`none` = `TimeoutError`) and the message pulled
from the worker's input queue (`none` = `queue.Empty`). -/
structure HandlerIter where
  recvd : Option Frame
  inMsg : Option Msg
deriving DecidableEq, Repr

/-- The Message IN half of `_client_handler`
(src/ppm/network/sockets.py lines 129-143): decode the frame (with the
`audio` base64/safetensors round-trip as identity), then forward the
message to the output edges iff `data['command']` is one of the allowed
commands; a missing `command` key raises `KeyError`; a receive timeout
is a caught no-op; a decode failure raises out of the iteration. -/
def handlerRecvPhase (key : Option Nat) (recvd : Option Frame) :
    Except NetErr (List Msg) :=
  match recvd with
  | none => .ok []
  | some f =>
    match netRecv key f with
    | .error e => .error e
    | .ok m =>
      match m.command with
      | none => .error (.fieldKeyErr ("command"))
      | some c => .ok (if serverCommands.contains c then [m] else [])

/-- The Message OUT half of `_client_handler`
(src/ppm/network/sockets.py lines 145-154): a queued message is
serialized, optionally encrypted and sent iff
`data['timestamp'] > start_time` (Python string comparison, i.e.
`start_time < data['timestamp']` lexicographically); otherwise it is
silently dropped; a missing `timestamp` key raises `KeyError`; an empty
queue is a caught no-op. -/
def handlerSendPhase (key : Option Nat) (start_time : String) (inMsg : Option Msg) :
    Except NetErr (List Frame) :=
  match inMsg with
  | none => .ok []
  | some d =>
    match d.timestamp with
    | none => .error (.fieldKeyErr ("timestamp"))
    | some ts => .ok (if start_time < ts then [netSend key d] else [])

/-- One iteration of the handler loop: IN phase then OUT phase; an
exception in the IN phase skips the OUT phase. -/
def handlerIter (key : Option Nat) (start_time : String) (it : HandlerIter) :
    Except NetErr (List Msg × List Frame) :=
  match handlerRecvPhase key it.recvd with
  | .error e => .error e
  | .ok outs =>
    match handlerSendPhase key start_time it.inMsg with
    | .error e => .error e
    | .ok sent => .ok (outs, sent)

/-- The handler relay loop (src/ppm/network/sockets.py lines 124-165):
iterations run until `exit_event` (end of the list); an exception is
caught by the handler's outer `except` clauses, logged, and ends the
handler session — later iterations never run and the `finally` block
drains the queues. -/
def handlerLoop (key : Option Nat) (start_time : String) :
    List HandlerIter → NetLoopResult
  | [] => ⟨[], [], none⟩
  | it :: rest =>
    match handlerIter key start_time it with
    | .error e => ⟨[], [], some e⟩
    | .ok (outs, sent) =>
      let r := handlerLoop key start_time rest
      ⟨sent ++ r.sent, outs ++ r.outputs, r.diedWith⟩

theorem clientRoutine_ok_recv {key : Option Nat} {it : ClientIter}
    {sf : List Frame} {outs : List Msg}
    (h : clientRoutine key it = .ok (sf, outs)) :
    clientRecvPhase key it.recvd = .ok outs := by
  unfold clientRoutine at h
  cases hs : clientSendPhase key it.inMsg with
  | error e => rw [hs] at h; simp at h
  | ok s =>
    rw [hs] at h
    cases hr : clientRecvPhase key it.recvd with
    | error e => rw [hr] at h; simp at h
    | ok o =>
      rw [hr] at h
      simp only [Except.ok.injEq, Prod.mk.injEq] at h
      rw [h.2]

theorem clientRecvPhase_ok_mem {key : Option Nat} {r : Option Frame}
    {outs : List Msg} {m : Msg}
    (h : clientRecvPhase key r = .ok outs) (hm : m ∈ outs) :
    ∃ f, r = some f ∧ netRecv key f = .ok m := by
  cases r with
  | none =>
    have h2 : (Except.ok [] : Except NetErr (List Msg)) = .ok outs := h
    injection h2 with h3
    rw [← h3] at hm
    exact absurd hm (by simp)
  | some f =>
    have h2 : (match netRecv key f with
        | .ok m0 => (Except.ok [m0] : Except NetErr (List Msg))
        | .error e => .error e) = .ok outs := h
    cases hn : netRecv key f with
    | error e => rw [hn] at h2; simp at h2
    | ok m2 =>
      rw [hn] at h2
      have h3 : (Except.ok [m2] : Except NetErr (List Msg)) = .ok outs := h2
      injection h3 with h4
      rw [← h4] at hm
      have hmm := List.mem_singleton.mp hm
      exact ⟨f, rfl, by rw [hn, hmm]⟩

theorem handlerIter_ok_phases {key : Option Nat} {st : String} {it : HandlerIter}
    {outs : List Msg} {sent : List Frame}
    (h : handlerIter key st it = .ok (outs, sent)) :
    handlerRecvPhase key it.recvd = .ok outs ∧
      handlerSendPhase key st it.inMsg = .ok sent := by
  unfold handlerIter at h
  cases hr : handlerRecvPhase key it.recvd with
  | error e => rw [hr] at h; simp at h
  | ok o =>
    rw [hr] at h
    cases hsnd : handlerSendPhase key st it.inMsg with
    | error e => rw [hsnd] at h; simp at h
    | ok s =>
      rw [hsnd] at h
      simp only [Except.ok.injEq, Prod.mk.injEq] at h
      exact ⟨by rw [h.1], by rw [h.2]⟩

theorem handlerRecvPhase_ok_mem {key : Option Nat} {r : Option Frame}
    {outs : List Msg} {m : Msg}
    (h : handlerRecvPhase key r = .ok outs) (hm : m ∈ outs) :
    ∃ f, r = some f ∧ netRecv key f = .ok m := by
  cases r with
  | none =>
    have h2 : (Except.ok [] : Except NetErr (List Msg)) = .ok outs := h
    injection h2 with h3
    rw [← h3] at hm
    exact absurd hm (by simp)
  | some f =>
    have h2 : (match netRecv key f with
        | .error e => (Except.error e : Except NetErr (List Msg))
        | .ok m0 =>
          match m0.command with
          | none => .error (.fieldKeyErr ("command"))
          | some c => .ok (if serverCommands.contains c then [m0] else [])) =
        .ok outs := h
    cases hn : netRecv key f with
    | error e => rw [hn] at h2; simp at h2
    | ok m2 =>
      rw [hn] at h2
      have h3 : (match m2.command with
          | none => (Except.error (.fieldKeyErr ("command")) : Except NetErr (List Msg))
          | some c => .ok (if serverCommands.contains c then [m2] else [])) =
          .ok outs := h2
      cases hc : m2.command with
      | none => rw [hc] at h3; simp at h3
      | some c =>
        rw [hc] at h3
        have h4 : (Except.ok (if serverCommands.contains c then [m2] else []) :
            Except NetErr (List Msg)) = .ok outs := h3
        injection h4 with h5
        rw [← h5] at hm
        by_cases hin : serverCommands.contains c
        · rw [if_pos hin] at hm
          have hmm := List.mem_singleton.mp hm
          exact ⟨f, rfl, by rw [hn, hmm]⟩
        · rw [if_neg hin] at hm
          exact absurd hm (by simp)

theorem handlerSendPhase_ok_mem {key : Option Nat} {st : String} {im : Option Msg}
    {sent : List Frame} {fr : Frame}
    (h : handlerSendPhase key st im = .ok sent) (hf : fr ∈ sent) :
    ∃ d ts, im = some d ∧ fr = netSend key d ∧ d.timestamp = some ts ∧ st < ts := by
  cases im with
  | none =>
    have h2 : (Except.ok [] : Except NetErr (List Frame)) = .ok sent := h
    injection h2 with h3
    rw [← h3] at hf
    exact absurd hf (by simp)
  | some d =>
    have h2 : (match d.timestamp with
        | none => (Except.error (.fieldKeyErr ("timestamp")) : Except NetErr (List Frame))
        | some ts => .ok (if st < ts then [netSend key d] else [])) = .ok sent := h
    cases hts : d.timestamp with
    | none => rw [hts] at h2; simp at h2
    | some ts =>
      rw [hts] at h2
      have h3 : (Except.ok (if st < ts then [netSend key d] else []) :
          Except NetErr (List Frame)) = .ok sent := h2
      injection h3 with h4
      rw [← h4] at hf
      by_cases hlt : st < ts
      · rw [if_pos hlt] at hf
        have hff := List.mem_singleton.mp hf
        exact ⟨d, ts, rfl, hff, hts, hlt⟩
      · rw [if_neg hlt] at hf
        exact absurd hf (by simp)

/-- C4 counterexample: with key 0 configured, a frame encrypted under
key 1 fails to decrypt; the `InvalidToken` escapes the client's
`routine` (only `queue.Empty`/`TimeoutError` are caught there), so the
run loop dies: a decryptable frame queued right behind it — which alone
would be delivered — is never processed, refuting the claim that the
receiving worker continues operating after an undecryptable frame. -/
theorem spec_c4_counterexample :
    clientLoop (some 0)
        [⟨none, some ⟨⟨some ("conv"), none, none⟩, some 1⟩⟩,
          ⟨none, some ⟨⟨some ("conv"), none, none⟩, some 0⟩⟩] =
      ⟨[], [], some (.invalidToken)⟩ ∧
    clientLoop (some 0)
        [⟨none, some ⟨⟨some ("conv"), none, none⟩, some 0⟩⟩] =
      ⟨[], [⟨some ("conv"), none, none⟩], none⟩ := by
  constructor
  · rfl
  · rfl

/-- C4 (amended): a received frame that fails to decrypt is never
propagated — every message a bridge worker delivers to its output edges
comes from a frame that decoded successfully — but rather than being
dropped with the worker continuing, the decryption error terminates the
client worker's run loop, resp. the server's handler session, where it
is logged. -/
theorem spec_c4_amended :
    (∀ (key : Option Nat) (its : List ClientIter) (m : Msg),
      m ∈ (clientLoop key its).outputs →
        ∃ it, it ∈ its ∧ ∃ f, it.recvd = some f ∧ netRecv key f = .ok m)
    ∧ (∀ (key : Option Nat) (f : Frame) (e : NetErr) (rest : List ClientIter),
      netRecv key f = .error e →
        clientLoop key (⟨none, some f⟩ :: rest) = ⟨[], [], some e⟩)
    ∧ (∀ (key : Option Nat) (st : String) (its : List HandlerIter) (m : Msg),
      m ∈ (handlerLoop key st its).outputs →
        ∃ it, it ∈ its ∧ ∃ f, it.recvd = some f ∧ netRecv key f = .ok m)
    ∧ (∀ (key : Option Nat) (st : String) (f : Frame) (e : NetErr)
        (rest : List HandlerIter),
      netRecv key f = .error e →
        handlerLoop key st (⟨some f, none⟩ :: rest) = ⟨[], [], some e⟩) := by
  refine ⟨?_, ?_, ?_, ?_⟩
  · intro key its
    induction its with
    | nil => intro m hm; exact absurd hm (by simp [clientLoop])
    | cons it rest ih =>
      intro m hm
      unfold clientLoop at hm
      cases hr : clientRoutine key it with
      | error e =>
        rw [hr] at hm
        exact absurd hm (by simp)
      | ok p =>
        rw [hr] at hm
        rcases p with ⟨sf, outs⟩
        simp only at hm
        rcases List.mem_append.mp hm with hmo | hmt
        · rcases clientRecvPhase_ok_mem (clientRoutine_ok_recv hr) hmo with ⟨f, hfeq, hok⟩
          exact ⟨it, by simp, f, hfeq, hok⟩
        · rcases ih m hmt with ⟨it2, hit2, f, hfeq, hok⟩
          exact ⟨it2, by simp [hit2], f, hfeq, hok⟩
  · intro key f e rest h
    simp [clientLoop, clientRoutine, clientSendPhase, clientRecvPhase, h]
  · intro key st its
    induction its with
    | nil => intro m hm; exact absurd hm (by simp [handlerLoop])
    | cons it rest ih =>
      intro m hm
      unfold handlerLoop at hm
      cases hr : handlerIter key st it with
      | error e =>
        rw [hr] at hm
        exact absurd hm (by simp)
      | ok p =>
        rw [hr] at hm
        rcases p with ⟨outs, sent⟩
        simp only at hm
        rcases List.mem_append.mp hm with hmo | hmt
        · rcases handlerRecvPhase_ok_mem (handlerIter_ok_phases hr).1 hmo with ⟨f, hfeq, hok⟩
          exact ⟨it, by simp, f, hfeq, hok⟩
        · rcases ih m hmt with ⟨it2, hit2, f, hfeq, hok⟩
          exact ⟨it2, by simp [hit2], f, hfeq, hok⟩
  · intro key st f e rest h
    simp [handlerLoop, handlerIter, handlerRecvPhase, handlerSendPhase, h]

/-- Witness for the amended C4 at concrete inputs: an undecryptable
frame terminates both the client loop and a handler session with the
logged `InvalidToken`, delivering nothing. -/
theorem spec_c4_witness :
    clientLoop (some 0) [⟨none, some ⟨⟨some ("conv"), none, none⟩, none⟩⟩] =
      ⟨[], [], some (.invalidToken)⟩ ∧
    handlerLoop (some 0) ("t0")
        [⟨some ⟨⟨some ("conv"), none, none⟩, none⟩, none⟩] =
      ⟨[], [], some (.invalidToken)⟩ :=
  ⟨spec_c4_amended.2.1 (some 0) ⟨⟨some ("conv"), none, none⟩, none⟩
      (.invalidToken) [] rfl,
    spec_c4_amended.2.2.2 (some 0) ("t0") ⟨⟨some ("conv"), none, none⟩, none⟩
      (.invalidToken) [] rfl⟩

/-- C5: for every message taken from the server worker's input edge by
an active handler, a timestamp predating the handler's recorded
connection start time suppresses the send, and every frame the handler
actually sends is the serialization (with optional encryption) of a
message whose timestamp is strictly later than the connection start
time (src/ppm/network/sockets.py lines 113 and 145-154). -/
theorem spec_c5 (key : Option Nat) (start_time : String) :
    (∀ m ts, m.timestamp = some ts → ts < start_time →
      handlerSendPhase key start_time (some m) = .ok [])
    ∧ (∀ its fr, fr ∈ (handlerLoop key start_time its).sent →
      ∃ d ts, fr = netSend key d ∧ d.timestamp = some ts ∧ start_time < ts) := by
  constructor
  · intro m ts hts hlt
    simp only [handlerSendPhase]
    rw [hts]
    show Except.ok (if start_time < ts then [netSend key m] else []) = .ok []
    rw [if_neg (lt_asymm hlt)]
  · intro its
    induction its with
    | nil => intro fr hf; exact absurd hf (by simp [handlerLoop])
    | cons it rest ih =>
      intro fr hf
      unfold handlerLoop at hf
      cases hr : handlerIter key start_time it with
      | error e =>
        rw [hr] at hf
        exact absurd hf (by simp)
      | ok p =>
        rw [hr] at hf
        rcases p with ⟨outs, sent⟩
        simp only at hf
        rcases List.mem_append.mp hf with hfs | hft
        · rcases handlerSendPhase_ok_mem (handlerIter_ok_phases hr).2 hfs with
            ⟨d, ts, _, hfr, hts, hlt⟩
          exact ⟨d, ts, hfr, hts, hlt⟩
        · exact ih fr hft

/-- Witness for C5: a message whose timestamp predates the connection
start time is suppressed by the handler's send phase. -/
theorem spec_c5_witness :
    handlerSendPhase none ("2024-06-01") (some ⟨none, none, some ("2024-01-01")⟩) =
      .ok [] :=
  (spec_c5 none ("2024-06-01")).1 ⟨none, none, some ("2024-01-01")⟩
    ("2024-01-01") rfl
    (by rw [String.lt_iff_toList_lt]; decide)

/-!  ### Handler admission control (src/ppm/network/sockets.py 112-121, 177)

The `websockets` server runs `_client_handler` in a fresh thread per
connection, so two handler entries can interleave.  Each handler thread
executes, against the shared `handler_running` flag:

    if self.handler_running: warn; return     (lines 115-117)
    self.handler_running = True               (line 121)
    ... relay loop ...                        (lines 124-165)
    finally: drain; self.handler_running = False   (lines 166-177)

The two-thread state machine below gives each thread a program counter
over exactly these steps; an action performs one thread's next step.
`relayed` counts relay-loop iterations performed while in the loop. -/

/-- Program counter of one handler thread. -/
inductive HandlerPC where
  | entry
  | passed
  | running
  | rejected
  | finished
deriving DecidableEq, Repr

/-- Shared state of the server worker with two handler threads A and B:
the `handler_running` flag, each thread's program counter, and how many
relay iterations each has performed. -/
structure ServerState where
  flag : Bool
  pcA : HandlerPC
  pcB : HandlerPC
  relayedA : Nat
  relayedB : Nat
deriving DecidableEq, Repr

/-- A scheduling action: advance thread A or B by one step, or let a
running thread leave its relay loop (disconnect/exception) and execute
the `finally` block. -/
inductive ServerAct where
  | stepA
  | stepB
  | finishA
  | finishB
deriving DecidableEq, Repr

/-- One small step.  From `entry` a step performs the
`if self.handler_running` check (line 115): with the flag set the thread
moves to `rejected` — this early return never touches the flag or the
queues; with the flag clear it moves to `passed` (the check succeeded
but line 121 has not executed yet).  From `passed` a step executes
`self.handler_running = True` and enters the relay loop.  From `running`
a step performs one relay iteration.  `finishX` executes the `finally`
block (line 177 clears the flag) of a running thread. -/
def serverStep (s : ServerState) : ServerAct → ServerState
  | .stepA =>
    match s.pcA with
    | .entry =>
      if s.flag then ⟨s.flag, .rejected, s.pcB, s.relayedA, s.relayedB⟩
      else ⟨s.flag, .passed, s.pcB, s.relayedA, s.relayedB⟩
    | .passed => ⟨true, .running, s.pcB, s.relayedA, s.relayedB⟩
    | .running => ⟨s.flag, .running, s.pcB, s.relayedA + 1, s.relayedB⟩
    | .rejected => s
    | .finished => s
  | .stepB =>
    match s.pcB with
    | .entry =>
      if s.flag then ⟨s.flag, s.pcA, .rejected, s.relayedA, s.relayedB⟩
      else ⟨s.flag, s.pcA, .passed, s.relayedA, s.relayedB⟩
    | .passed => ⟨true, s.pcA, .running, s.relayedA, s.relayedB⟩
    | .running => ⟨s.flag, s.pcA, .running, s.relayedA, s.relayedB + 1⟩
    | .rejected => s
    | .finished => s
  | .finishA =>
    match s.pcA with
    | .running => ⟨false, .finished, s.pcB, s.relayedA, s.relayedB⟩
    | _ => s
  | .finishB =>
    match s.pcB with
    | .running => ⟨false, s.pcA, .finished, s.relayedA, s.relayedB⟩
    | _ => s

/-- Run a schedule of actions from a state. -/
def serverRunSched : ServerState → List ServerAct → ServerState
  | s, [] => s
  | s, a :: rest => serverRunSched (serverStep s a) rest

/-- Initial state: flag clear (`self.handler_running = False` in
`__init__`, line 89), both connections at the admission check. -/
def serverInit : ServerState :=
  ⟨false, .entry, .entry, 0, 0⟩

/-- C6 counterexample: the check (line 115) and the set (line 121) of
`handler_running` are separate unsynchronized steps, so two handler
threads that both pass the check before either sets the flag both reach
the relay loop — two concurrently active handlers, refuting the claimed
invariant. -/
theorem spec_c6_counterexample :
    (serverRunSched serverInit [.stepA, .stepB, .stepA, .stepB]).pcA =
        .running ∧
      (serverRunSched serverInit [.stepA, .stepB, .stepA, .stepB]).pcB =
        .running := by
  constructor
  · rfl
  · rfl

/-- C6 (amended): when the second connection's handler performs its
admission check while `handler_running` is already set, it moves to
`rejected`, changing nothing else — the active handler's state, its
relay count and the flag are untouched — and a rejected handler never
relays a message nor re-enters under any later schedule.  Mutual
exclusion is however not guaranteed in general, because the check and
the set are not atomic. -/
theorem spec_c6_amended :
    (∀ s : ServerState, s.pcB = .entry → s.flag = true →
      serverStep s .stepB = ⟨s.flag, s.pcA, .rejected, s.relayedA, s.relayedB⟩)
    ∧ (∀ (s : ServerState) (sched : List ServerAct), s.pcB = .rejected →
      (serverRunSched s sched).pcB = .rejected ∧
        (serverRunSched s sched).relayedB = s.relayedB) := by
  constructor
  · intro s hpc hflag
    show serverStep s .stepB = _
    unfold serverStep
    rw [hpc, hflag]
    simp
  · intro s sched
    induction sched generalizing s with
    | nil => intro h; exact ⟨h, rfl⟩
    | cons a rest ih =>
      intro h
      have hstep : (serverStep s a).pcB = .rejected ∧
          (serverStep s a).relayedB = s.relayedB := by
        cases a with
        | stepA =>
          cases hA : s.pcA with
          | entry =>
            unfold serverStep
            rw [hA]
            by_cases hf : s.flag
            · rw [if_pos hf]; exact ⟨h, rfl⟩
            · rw [if_neg hf]; exact ⟨h, rfl⟩
          | passed => unfold serverStep; rw [hA]; exact ⟨h, rfl⟩
          | running => unfold serverStep; rw [hA]; exact ⟨h, rfl⟩
          | rejected => unfold serverStep; rw [hA]; exact ⟨h, rfl⟩
          | finished => unfold serverStep; rw [hA]; exact ⟨h, rfl⟩
        | stepB => unfold serverStep; rw [h]; exact ⟨h, rfl⟩
        | finishA =>
          cases hA : s.pcA with
          | entry => unfold serverStep; rw [hA]; exact ⟨h, rfl⟩
          | passed => unfold serverStep; rw [hA]; exact ⟨h, rfl⟩
          | running => unfold serverStep; rw [hA]; exact ⟨h, rfl⟩
          | rejected => unfold serverStep; rw [hA]; exact ⟨h, rfl⟩
          | finished => unfold serverStep; rw [hA]; exact ⟨h, rfl⟩
        | finishB => unfold serverStep; rw [h]; exact ⟨h, rfl⟩
      have := ih (serverStep s a) hstep.1
      refine ⟨this.1, ?_⟩
      rw [serverRunSched]
      rw [this.2, hstep.2]

/-- Witness for the amended C6: with handler A active (flag set, A in
its relay loop after 3 iterations), B's admission check rejects B and
leaves A's state and the flag untouched; a rejected B stays rejected and
relays nothing across a further schedule. -/
theorem spec_c6_witness :
    serverStep ⟨true, .running, .entry, 3, 0⟩ .stepB =
        ⟨true, .running, .rejected, 3, 0⟩ ∧
      (serverRunSched ⟨true, .running, .rejected, 3, 0⟩
          [.stepB, .stepA, .finishB]).pcB = .rejected ∧
      (serverRunSched ⟨true, .running, .rejected, 3, 0⟩
          [.stepB, .stepA, .finishB]).relayedB = 0 :=
  ⟨spec_c6_amended.1 ⟨true, .running, .entry, 3, 0⟩ rfl rfl,
    (spec_c6_amended.2 ⟨true, .running, .rejected, 3, 0⟩
      [.stepB, .stepA, .finishB] rfl).1,
    (spec_c6_amended.2 ⟨true, .running, .rejected, 3, 0⟩
      [.stepB, .stepA, .finishB] rfl).2⟩

/-!  ### NetworkServerWorker.run (src/ppm/network/sockets.py 91-108)

`NetworkServerWorker` overrides `WorkerProcess.run` entirely: it
launches the listener thread, sets `ready`, and then only polls
`exit_event` (line 103) — the method body contains no reference to
`start_event`, so the readiness barrier never gates the handler, which
starts relaying as soon as a client connects.  The override is modelled
with the worker's `start_event` value as an input that the body ignores,
exactly as the source ignores the attribute. -/

/-- Observable trace of `NetworkServerWorker.run`: the server's `ready`
event is set (line 100) and the loop polls `exit_event` once per sleep
until it is set. -/
structure ServerRunTrace where
  readySet : Bool
  exitPolls : Nat
deriving DecidableEq, Repr

/-- `NetworkServerWorker.run` given the current `start_event` value and
the number of polls after which `exit_event` becomes set.  The
`startSet` argument is never consulted, mirroring the absence of
`start_event` from the method body. -/
def serverWorkerRun (startSet : Bool) (exitAfterPolls : Nat) : ServerRunTrace :=
  ⟨true, exitAfterPolls⟩

/-- A whole server-worker execution: the run loop's trace together with
the relay activity of the handler thread serving a connected client
(which runs concurrently in the listener's thread pool). -/
structure ServerExec where
  runTrace : ServerRunTrace
  relay : NetLoopResult
deriving DecidableEq, Repr

/-- The server worker's observable execution: `run` in the main thread,
the connection handler in the listener thread; neither consults
`start_event`. -/
def serverWorkerExec (startSet : Bool) (exitAfterPolls : Nat)
    (key : Option Nat) (start_time : String) (its : List HandlerIter) :
    ServerExec :=
  ⟨serverWorkerRun startSet exitAfterPolls, handlerLoop key start_time its⟩

/-- C9: the socket_server worker's overridden `run` never consults the
start signal — its whole execution is invariant under the value of
`start_event` — and with `start` unset a connected client's frame
carrying an allowed command is already delivered to the worker's output
edges, so the readiness barrier does not gate messages originating from
the server bridge. -/
theorem spec_c9 :
    (∀ (b1 b2 : Bool) (e : Nat) (key : Option Nat) (st : String)
        (its : List HandlerIter),
      serverWorkerExec b1 e key st its = serverWorkerExec b2 e key st its)
    ∧ (serverWorkerExec false 0 none ("2020-01-01T00:00:00")
        [⟨some ⟨⟨some ("conv"), none, none⟩, none⟩, none⟩]).relay.outputs =
      [⟨some ("conv"), none, none⟩] := by
  constructor
  · intro b1 b2 e key st its
    rfl
  · rfl

end PpmConv
